import Mathlib

/-!
Shallow embedding of the WebriskCache class (src/index.mjs, current variant) and
verification of the specification's claims about it.

Conventions of the embedding:
* JS `Buffer`s are `List Nat` (one `Nat` per byte).
* JS strings used as map/set keys (hex strings produced by `toString('hex')`)
  are `List Char`.
* JS `Map` is an insertion-ordered association list; JS `Set` is an
  insertion-ordered duplicate-free list.
* The network (WebRiskServiceClient) is an external collaborator; it is modelled
  as an oracle scripting the outcome of each attempted call (`none` = the call
  threw).  `Date.now()` is passed in explicitly as `now` (milliseconds).
* `node:crypto`'s sha256 is embedded directly (`sha256` below).
-/

set_option maxRecDepth 10000

/-! ### Hex strings (Buffer.toString('hex') / Buffer.from(s,'hex')) -/

def hexDigitChar (n : Nat) : Char :=
  if n < 10 then Char.ofNat (48 + n) else Char.ofNat (87 + n)

def byteToHexChars (b : Nat) : List Char :=
  [hexDigitChar (b / 16), hexDigitChar (b % 16)]

def bytesToHex (bs : List Nat) : List Char :=
  (bs.map byteToHexChars).flatten

def hexCharVal (c : Char) : Nat :=
  if 97 ≤ c.toNat then c.toNat - 87
  else if 65 ≤ c.toNat then c.toNat - 55
  else c.toNat - 48

def hexToBytes : List Char → List Nat
  | c1 :: c2 :: rest => (16 * hexCharVal c1 + hexCharVal c2) :: hexToBytes rest
  | _ => []

/-! ### JS Map / Set on association lists -/

def setAdd {α : Type} [DecidableEq α] (l : List α) (x : α) : List α :=
  if x ∈ l then l else l ++ [x]

def jsSetOfList {α : Type} [DecidableEq α] (l : List α) : List α :=
  l.foldl setAdd []

def lookupKey {κ ν : Type} [DecidableEq κ] : List (κ × ν) → κ → Option ν
  | [], _ => none
  | p :: rest, k => if p.1 = k then some p.2 else lookupKey rest k

def setKey {κ ν : Type} [DecidableEq κ] (l : List (κ × ν)) (k : κ) (v : ν) : List (κ × ν) :=
  if (lookupKey l k).isSome then l.map (fun p => if p.1 = k then (k, v) else p)
  else l ++ [(k, v)]

def eraseKey {κ ν : Type} [DecidableEq κ] (l : List (κ × ν)) (k : κ) : List (κ × ν) :=
  l.filter (fun p => p.1 ≠ k)

/-! ### Chunking a buffer into fixed-size pieces (the `for (i += prefixSize)` loop) -/

def chunksGo (size : Nat) : Nat → List Nat → List (List Nat)
  | 0, _ => []
  | _ + 1, [] => []
  | fuel + 1, b => b.take size :: chunksGo size fuel (b.drop size)

/-- `chunks b size` splits buffer `b` into consecutive pieces of `size` bytes
(the last piece may be shorter), as the addition loop in `#addToDB` does.
For `size = 0` the JS loop would not terminate; no claim exercises it. -/
def chunks (b : List Nat) (size : Nat) : List (List Nat) :=
  if size = 0 then [] else chunksGo size b.length b

/-! ### Retry runners (#simpleRetry / #exponentialBackoff).
The delays do not influence results; only the attempt bound does.  The oracle
`att` gives the outcome of attempt `i` (`none` = the awaited call threw). -/

def runRetriesGo {ρ : Type} (att : Nat → Option ρ) : Nat → Nat → Option ρ
  | 0, _ => none
  | remaining + 1, i =>
    match att i with
    | some r => some r
    | none => runRetriesGo att remaining (i + 1)

def runRetries {ρ : Type} (att : Nat → Option ρ) (maxRetries : Nat) : Option ρ :=
  runRetriesGo att maxRetries 0

/-! ### JS string comparison (code-unit lexicographic), used by `.sort()` -/

def hexLe : List Char → List Char → Bool
  | [], _ => true
  | _ :: _, [] => false
  | a :: as, b :: bs =>
    if a.toNat < b.toNat then true
    else if b.toNat < a.toNat then false
    else hexLe as bs

def leHex (a b : List Char) : Prop := hexLe a b = true

instance : DecidableRel leHex := fun a b => inferInstanceAs (Decidable (hexLe a b = true))

/-! ### SHA-256 (node:crypto createHash('sha256')) over byte lists -/

def w32 (n : Nat) : Nat := n % 4294967296

def rotr32 (x n : Nat) : Nat := w32 ((x >>> n) ||| (x <<< (32 - n)))

def not32 (x : Nat) : Nat := x ^^^ 4294967295

def xor3 (a b c : Nat) : Nat := a ^^^ b ^^^ c

def shaCh (x y z : Nat) : Nat := (x &&& y) ^^^ (not32 x &&& z)

def shaMaj (x y z : Nat) : Nat := xor3 (x &&& y) (x &&& z) (y &&& z)

def bigSigma0 (x : Nat) : Nat := xor3 (rotr32 x 2) (rotr32 x 13) (rotr32 x 22)

def bigSigma1 (x : Nat) : Nat := xor3 (rotr32 x 6) (rotr32 x 11) (rotr32 x 25)

def smallSigma0 (x : Nat) : Nat := xor3 (rotr32 x 7) (rotr32 x 18) (x >>> 3)

def smallSigma1 (x : Nat) : Nat := xor3 (rotr32 x 17) (rotr32 x 19) (x >>> 10)

def sha256K : List Nat :=
  [1116352408, 1899447441, 3049323471, 3921009573, 961987163, 1508970993,
   2453635748, 2870763221, 3624381080, 310598401, 607225278, 1426881987,
   1925078388, 2162078206, 2614888103, 3248222580, 3835390401, 4022224774,
   264347078, 604807628, 770255983, 1249150122, 1555081692, 1996064986,
   2554220882, 2821834349, 2952996808, 3210313671, 3336571891, 3584528711,
   113926993, 338241895, 666307205, 773529912, 1294757372, 1396182291,
   1695183700, 1986661051, 2177026350, 2456956037, 2730485921, 2820302411,
   3259730800, 3345764771, 3516065817, 3600352804, 4094571909, 275423344,
   430227734, 506948616, 659060556, 883997877, 958139571, 1322822218,
   1537002063, 1747873779, 1955562222, 2024104815, 2227730452, 2361852424,
   2428436474, 2756734187, 3204031479, 3329325298]

def sha256H0 : List Nat :=
  [1779033703, 3144134277, 1013904242, 2773480762,
   1359893119, 2600822924, 528734635, 1541459225]

def toBytesBE (len n : Nat) : List Nat :=
  ((List.range len).reverse).map (fun i => (n >>> (8 * i)) % 256)

def bytesToWords : List Nat → List Nat
  | b0 :: b1 :: b2 :: b3 :: rest => (((b0 * 256 + b1) * 256 + b2) * 256 + b3) :: bytesToWords rest
  | _ => []

def schedStep (acc : List Nat) : List Nat :=
  let i := acc.length
  acc ++ [w32 (acc.getD (i - 16) 0 + smallSigma0 (acc.getD (i - 15) 0) +
               acc.getD (i - 7) 0 + smallSigma1 (acc.getD (i - 2) 0))]

def schedule (ws : List Nat) : List Nat :=
  (List.range 48).foldl (fun a _ => schedStep a) ws

def compressRound (st : List Nat) (kw : Nat × Nat) : List Nat :=
  match st with
  | [a, b, c, d, e, f, g, h] =>
    let t1 := w32 (h + bigSigma1 e + shaCh e f g + kw.1 + kw.2)
    let t2 := w32 (bigSigma0 a + shaMaj a b c)
    [w32 (t1 + t2), a, b, c, w32 (d + t1), e, f, g]
  | other => other

def processChunk (hs : List Nat) (chunk : List Nat) : List Nat :=
  let ws := schedule (bytesToWords chunk)
  let st := (sha256K.zip ws).foldl compressRound hs
  (hs.zip st).map (fun p => w32 (p.1 + p.2))

def sha256 (msg : List Nat) : List Nat :=
  let l := msg.length
  let k := (55 + 64 - l % 64) % 64
  let padded := msg ++ [128] ++ List.replicate k 0 ++ toBytesBE 8 (8 * l)
  let hs := (chunks padded 64).foldl processChunk sha256H0
  (hs.map (toBytesBE 4)).flatten

theorem sha256_empty_vector :
    bytesToHex (sha256 []) =
      "e3b0c44298fc1c149afbf4c8996fb92427ae41e4649b934ca495991b7852b855".toList := by
  decide

/-! ### Data model (src/index.mjs, constructor and response shapes) -/

def allTypes : List String := ["malware", "social", "unwanted"]

/-- One record of `response.threats` from `searchHashes` (remote verification). -/
structure ThreatRecord where
  hash : List Nat
  threatTypes : List String
  expireSeconds : Int
deriving DecidableEq, Repr

/-- The `searchHashes` response body used by `check`. -/
structure SearchHashesResponse where
  threats : List ThreatRecord
  negativeExpireTime : Option Int
deriving DecidableEq, Repr

/-- One element of `additions.rawHashes`: a prefix size and the concatenated
prefix bytes. -/
structure RawHashes where
  prefixSize : Nat
  rawHashes : List Nat
deriving DecidableEq, Repr

structure ThreatEntryAdditions where
  rawHashes : List RawHashes
deriving DecidableEq, Repr

structure RawIndices where
  indices : List Nat
deriving DecidableEq, Repr

structure Removals where
  rawIndices : RawIndices
deriving DecidableEq, Repr

/-- The `computeThreatListDiff` response body used by `#requestSingleDiff`.
`checksum` is `response.checksum.sha256` (raw bytes); `recommendedNextDiff`
is `response.recommendedNextDiff.seconds`. -/
structure DiffResponse where
  responseType : String
  additions : Option ThreatEntryAdditions
  removals : Option Removals
  newVersionToken : List Nat
  checksum : List Nat
  recommendedNextDiff : Int
deriving DecidableEq, Repr

/-- The request built by `#requestSingleDiff` (the part the diff service can
observe; the opaque `constraint` is passed through unchanged). -/
structure DiffRequest where
  versionToken : Option (List Nat)
  threatType : String
deriving DecidableEq, Repr

/-- How one `#requestSingleDiff` episode ended: `scheduled d` means
`#diffPromise(type, d)` was invoked with the server-recommended deadline after
a validated application; `fallback` means all retries failed and
`#diffPromise(type, 900)` was invoked; `streamEnded` is a model artifact (the
scripted response stream ran out during checksum-mismatch recursion). -/
inductive SyncResult where
  | scheduled (deadline : Int)
  | fallback
  | streamEnded
deriving DecidableEq, Repr

inductive JsError where
  | typeError
  | invalidArg
deriving DecidableEq, Repr

/-- The mutable state of a `WebriskCache` instance: `this.hits` (positive keyed
by full-hash hex string, value `(expireTime.seconds, threatTypes)`; negative
keyed by prefix hex string, value `expireTime.seconds`), `this.databases`
(per-category insertion-ordered sets of prefix hex strings),
`this.prefixSizes`, and `this.tokens`. -/
structure CacheState where
  positiveHits : List (List Char × (Int × List String))
  negativeHits : List (List Char × Int)
  malwareDB : List (List Char)
  socialDB : List (List Char)
  unwantedDB : List (List Char)
  malwareSizes : List Nat
  socialSizes : List Nat
  unwantedSizes : List Nat
  malwareToken : Option (List Nat)
  socialToken : Option (List Nat)
  unwantedToken : Option (List Nat)
deriving DecidableEq, Repr

/-- The state built by the constructor: everything empty, all tokens null. -/
def initialState : CacheState :=
  { positiveHits := [], negativeHits := []
    malwareDB := [], socialDB := [], unwantedDB := []
    malwareSizes := [], socialSizes := [], unwantedSizes := []
    malwareToken := none, socialToken := none, unwantedToken := none }

def getDB (st : CacheState) (ts : String) : List (List Char) :=
  if ts = "malware" then st.malwareDB
  else if ts = "social" then st.socialDB
  else if ts = "unwanted" then st.unwantedDB
  else []

def setDBf (st : CacheState) (ts : String) (d : List (List Char)) : CacheState :=
  if ts = "malware" then { st with malwareDB := d }
  else if ts = "social" then { st with socialDB := d }
  else if ts = "unwanted" then { st with unwantedDB := d }
  else st

def getSizes (st : CacheState) (ts : String) : List Nat :=
  if ts = "malware" then st.malwareSizes
  else if ts = "social" then st.socialSizes
  else if ts = "unwanted" then st.unwantedSizes
  else []

def setSizes (st : CacheState) (ts : String) (l : List Nat) : CacheState :=
  if ts = "malware" then { st with malwareSizes := l }
  else if ts = "social" then { st with socialSizes := l }
  else if ts = "unwanted" then { st with unwantedSizes := l }
  else st

def getToken (st : CacheState) (ts : String) : Option (List Nat) :=
  if ts = "malware" then st.malwareToken
  else if ts = "social" then st.socialToken
  else if ts = "unwanted" then st.unwantedToken
  else none

def setToken (st : CacheState) (ts : String) (v : Option (List Nat)) : CacheState :=
  if ts = "malware" then { st with malwareToken := v }
  else if ts = "social" then { st with socialToken := v }
  else if ts = "unwanted" then { st with unwantedToken := v }
  else st

/-- `Object.entries(this.databases)` in insertion order. -/
def databasesEntries (st : CacheState) : List (String × List (List Char)) :=
  [("malware", st.malwareDB), ("social", st.socialDB), ("unwanted", st.unwantedDB)]

/-! ### findHash (src/index.mjs lines 499-533) -/

/-- Lines 500-502 of `findHash`: the union of the three `prefixSizes` sets,
sorted ascending, mapped to the hex strings of the hash's prefixes of those
lengths. -/
def candidatePrefixStrings (st : CacheState) (hash : List Nat) : List (List Char) :=
  let fullSet := jsSetOfList (st.malwareSizes ++ st.socialSizes ++ st.unwantedSizes)
  let sortedOrder := List.insertionSort (fun a b => a ≤ b) fullSet
  sortedOrder.map (fun x => bytesToHex (hash.take x))

/-- The negative hit-cache loop of `findHash`: deletes expired entries it
meets, returns `("negative", len)` on the first unexpired one. -/
def negLoop (now : Int) : List (List Char) → CacheState → Option (String × Nat) × CacheState
  | [], st => (none, st)
  | p :: rest, st =>
    match lookupKey st.negativeHits p with
    | some expireTime =>
      if expireTime * 1000 < now then
        negLoop now rest { st with negativeHits := eraseKey st.negativeHits p }
      else (some ("negative", p.length / 2), st)
    | none => negLoop now rest st

/-- Inner loop of the prefix-database scan of `findHash`: first prefix string
of the candidate list present in `db`, reported as its byte length. -/
def dbFindIn (db : List (List Char)) : List (List Char) → Option Nat
  | [] => none
  | p :: rest => if p ∈ db then some (p.length / 2) else dbFindIn db rest

/-- Outer loop of the prefix-database scan of `findHash`: categories in
`Object.entries` order (malware, social, unwanted) are the outer loop, prefix
lengths the inner loop. -/
def dbFind (ps : List (List Char)) : List (String × List (List Char)) → String × Nat
  | [] => ("none", 0)
  | (ts, db) :: rest =>
    match dbFindIn db ps with
    | some n => (ts, n)
    | none => dbFind ps rest

/-- `findHash(hash)` (lines 499-533).  `now` is `Date.now()` in milliseconds.
Returns the `[location, matchedPrefixLength]` pair and the post-call state
(the call deletes the expired hit-cache entries it meets). -/
def findHash (now : Int) (st : CacheState) (hash : List Nat) : (String × Nat) × CacheState :=
  let prefixStrings := candidatePrefixStrings st hash
  let fullHashString := bytesToHex hash
  match lookupKey st.positiveHits fullHashString with
  | some (expireTime, _) =>
    if expireTime * 1000 < now then
      let st1 := { st with positiveHits := eraseKey st.positiveHits fullHashString }
      (dbFind prefixStrings (databasesEntries st1), st1)
    else (("positive", 32), st)
  | none =>
    match negLoop now prefixStrings st with
    | (some r, st1) => (r, st1)
    | (none, st1) => (dbFind prefixStrings (databasesEntries st1), st1)

/-! ### check (src/index.mjs lines 444-488) -/

/-- The positive hit-cache insertion done for each record of the verification
response: `this.hits["positive"].set(hashString, [expireTime.seconds,
threatTypes])`. -/
def insertThreat (st : CacheState) (t : ThreatRecord) : CacheState :=
  { st with positiveHits :=
      setKey st.positiveHits (bytesToHex t.hash) (t.expireSeconds, t.threatTypes) }

/-- The `for (const threat of response.threats)` loop of `check`: every record
visited gets a positive hit-cache entry; on the first record whose full hash
equals the queried hash its threat types are added to the accumulator and the
loop `break`s. -/
def threatLoop (fullHash : List Nat) :
    List ThreatRecord → List String → CacheState → List String × CacheState
  | [], acc, st => (acc, st)
  | t :: rest, acc, st =>
    let st1 := insertThreat st t
    if t.hash = fullHash then (t.threatTypes.foldl setAdd acc, st1)
    else threatLoop fullHash rest acc st1

/-- One iteration of `check`'s `for (const fullHash of allFullHashes)` loop.
`verify p i` is the outcome of attempt `i` of `searchHashes` for prefix hex
string `p` (`none` = the call threw); the verification call runs under
`#exponentialBackoff` with its default 10 attempts.  When all attempts fail,
the caught error leaves `response` undefined and `response.threats` throws a
TypeError, which propagates out of `check`. -/
def checkOne (now : Int) (verify : List Char → Nat → Option SearchHashesResponse)
    (st : CacheState) (acc : List String) (fullHash : List Nat) :
    Except JsError (List String × CacheState) :=
  let found := findHash now st fullHash
  let typeString := found.1.1
  let st1 := found.2
  let fullHashString := bytesToHex fullHash
  if typeString ∈ allTypes then
    let prefixString := bytesToHex (fullHash.take found.1.2)
    match runRetries (verify prefixString) 10 with
    | none => Except.error JsError.typeError
    | some response =>
      let looped := threatLoop fullHash response.threats acc st1
      let st3 :=
        match response.negativeExpireTime with
        | some s => { looped.2 with negativeHits := setKey looped.2.negativeHits prefixString s }
        | none => looped.2
      Except.ok (looped.1, st3)
  else if typeString = "positive" then
    match lookupKey st1.positiveHits fullHashString with
    | some hit => Except.ok (hit.2.foldl setAdd acc, st1)
    | none => Except.error JsError.typeError
  else Except.ok (acc, st1)

def checkList (now : Int) (verify : List Char → Nat → Option SearchHashesResponse) :
    List (List Nat) → List String → CacheState → Except JsError (List String × CacheState)
  | [], acc, st => Except.ok (acc, st)
  | h :: rest, acc, st =>
    match checkOne now verify st acc h with
    | Except.error e => Except.error e
    | Except.ok r => checkList now verify rest r.1 r.2

/-- `check(uri, isHash)` (lines 444-488) over the candidate full hashes
(`[Buffer.from(uri,'hex')]` when `isHash`, else the external
`getPrefixes(uri)` derivation).  Returns the identified-threats array and the
post-call state, or the thrown error. -/
def check (now : Int) (verify : List Char → Nat → Option SearchHashesResponse)
    (st : CacheState) (allFullHashes : List (List Nat)) :
    Except JsError (List String × CacheState) :=
  checkList now verify allFullHashes [] st

/-! ### Diff synchronization (#addToDB, #removeFromDB, #updateDB, #validate,
#requestSingleDiff, requestDiff, #diffPromise) -/

/-- `#addToDB` (lines 666-682): records each raw entry's `prefixSize` in the
category's PrefixSizeSet and adds every chunk's hex string to the category's
database set. -/
def addToDB (st : CacheState) (ts : String) (additions : Option ThreatEntryAdditions) :
    CacheState :=
  match additions with
  | none => st
  | some adds =>
    adds.rawHashes.foldl
      (fun s raw =>
        let s1 := setSizes s ts (setAdd (getSizes s ts) raw.prefixSize)
        setDBf s1 ts
          ((chunks raw.rawHashes raw.prefixSize).foldl
            (fun d c => setAdd d (bytesToHex c)) (getDB s1 ts)))
      st

/-- `#removeFromDB` (lines 649-664): collects the keys whose zero-based
position in the current iteration order is listed in `rawIndices.indices`,
then deletes them. -/
def removeFromDB (st : CacheState) (ts : String) (removals : Option Removals) : CacheState :=
  match removals with
  | none => st
  | some r =>
    let dbl := getDB st ts
    let toDelete := (dbl.enum.filter (fun p => p.1 ∈ r.rawIndices.indices)).map (fun p => p.2)
    setDBf st ts (toDelete.foldl (fun d k => d.filter (fun x => x ≠ k)) dbl)

/-- `#updateDB` (lines 632-647): DIFF removes, adds, then rebuilds the set from
the keys sorted by JS default string order; RESET clears the database and the
PrefixSizeSet and adds, with no re-sort.  In both cases (and for any other
`responseType`) the version token is then stored unconditionally. -/
def updateDB (st : CacheState) (response : DiffResponse) (ts : String) : CacheState :=
  let st1 :=
    if response.responseType = "DIFF" then
      let s1 := removeFromDB st ts response.removals
      let s2 := addToDB s1 ts response.additions
      setDBf s2 ts (List.insertionSort leHex (getDB s2 ts))
    else if response.responseType = "RESET" then
      addToDB (setSizes (setDBf st ts []) ts []) ts response.additions
    else st
  setToken st1 ts (some response.newVersionToken)

/-- `#validate` (lines 684-697): sha256 of the byte decoding of the
concatenated entry hex strings, in iteration order, compared (as hex strings)
with the server-declared checksum. -/
def validate (st : CacheState) (ts : String) (hashBuffer : List Nat) : Bool :=
  bytesToHex (sha256 (hexToBytes (getDB st ts).flatten)) == bytesToHex hashBuffer

/-- `#diffPromise`'s wait computation (lines 615-625): the argument is treated
as an absolute epoch deadline in seconds and the timer is armed for
`deadline - now` seconds. -/
def diffPromiseDelaySeconds (epochTimeDeadline now : Int) : Int :=
  epochTimeDeadline - now

/-- Node's `setTimeout` clamps a delay below 1 ms (in particular a negative
one) or above 2^31 - 1 ms to 1 ms. -/
def nodeTimerDelayMs (ms : Int) : Int :=
  if ms < 1 ∨ 2147483647 < ms then 1 else ms

/-- The effective timer delay, in milliseconds, armed by
`#diffPromise(type, deadline)` when the current epoch time is `nowSeconds`. -/
def diffPromiseTimerMs (deadline nowSeconds : Int) : Int :=
  nodeTimerDelayMs (diffPromiseDelaySeconds deadline nowSeconds * 1000)

/-- `#requestSingleDiff` (lines 582-613).  The scripted stream holds one
element per invocation (the initial call and each checksum-mismatch
recursion); the element maps the built request and the attempt number to that
attempt's outcome, and the diff call runs under `#simpleRetry` with its
default 2 attempts.  Returns how the episode ended, the final state, and the
unconsumed remainder of the stream. -/
def requestSingleDiffGo :
    List (DiffRequest → Nat → Option DiffResponse) → CacheState → String → Bool →
    (SyncResult × CacheState) × List (DiffRequest → Nat → Option DiffResponse)
  | [], st, _, _ => ((SyncResult.streamEnded, st), [])
  | att :: rest, st, ts, reset =>
    let request : DiffRequest :=
      { versionToken := if reset then none else getToken st ts, threatType := ts }
    match runRetries (att request) 2 with
    | none => ((SyncResult.fallback, st), rest)
    | some response =>
      let st1 := updateDB st response ts
      if validate st1 ts response.checksum then
        ((SyncResult.scheduled response.recommendedNextDiff, st1), rest)
      else requestSingleDiffGo rest st1 ts true

def requestDiffGo :
    List String → List (DiffRequest → Nat → Option DiffResponse) → CacheState → Bool →
    List SyncResult × CacheState
  | [], _, st, _ => ([], st)
  | ts :: more, script, st, reset =>
    let one := requestSingleDiffGo script st ts reset
    let restRun := requestDiffGo more one.2 one.1.2 reset
    (one.1.1 :: restRun.1, restRun.2)

/-- `requestDiff(type, reset, constraint)` (lines 421-433): an unrecognized
type string throws; otherwise the named categories are synced in order. -/
def requestDiff (script : List (DiffRequest → Nat → Option DiffResponse))
    (st : CacheState) (type : String) (reset : Bool) :
    Except JsError (List SyncResult × CacheState) :=
  if type = "all" then Except.ok (requestDiffGo allTypes script st reset)
  else if type ∈ allTypes then Except.ok (requestDiffGo [type] script st reset)
  else Except.error JsError.invalidArg

/-! ### The specification's ordering predicate for C4 -/

/-- The unsigned big-endian integer value of a hex-string entry, of its own
length (the spec's comparison key for database entries). -/
def hexValue (s : List Char) : Nat :=
  (hexToBytes s).foldl (fun a b => 256 * a + b) 0

def ascByOwnValue : List (List Char) → Bool
  | [] => true
  | [_] => true
  | a :: b :: rest =>
    if hexValue a ≤ hexValue b then ascByOwnValue (b :: rest) else false

/-- The spec's database-order invariant: entries ascending when compared as
unsigned big-endian integers of their own length. -/
def sortedByOwnValue (l : List (List Char)) : Prop :=
  ascByOwnValue l = true

instance (l : List (List Char)) : Decidable (sortedByOwnValue l) :=
  inferInstanceAs (Decidable (ascByOwnValue l = true))

/-! ### Helper lemmas -/

theorem bytesToHex_length (bs : List Nat) : (bytesToHex bs).length = 2 * bs.length := by
  induction bs with
  | nil => rfl
  | cons b rest ih =>
    simp [bytesToHex, byteToHexChars] at ih ⊢
    omega

theorem lookupKey_eraseKey_self {κ ν : Type} [DecidableEq κ] (l : List (κ × ν)) (k : κ) :
    lookupKey (eraseKey l k) k = none := by
  induction l with
  | nil => rfl
  | cons p rest ih =>
    by_cases h : p.1 = k
    · simpa [eraseKey, h] using ih
    · simpa [eraseKey, lookupKey, h] using ih

theorem hexLe_cons_iff (x y : Char) (as bs : List Char) :
    hexLe (x :: as) (y :: bs) = true ↔
      (x.toNat < y.toNat ∨ (x.toNat = y.toNat ∧ hexLe as bs = true)) := by
  simp only [hexLe]
  rcases Nat.lt_trichotomy x.toNat y.toNat with h | h | h
  · simp [h]
  · simp [h, Nat.lt_irrefl]
  · have h1 : ¬ x.toNat < y.toNat := by omega
    have h2 : ¬ x.toNat = y.toNat := by omega
    simp [h, h1, h2]

theorem hexLe_total (a : List Char) : ∀ b, hexLe a b = true ∨ hexLe b a = true := by
  induction a with
  | nil => intro b; left; rfl
  | cons x as ih =>
    intro b
    cases b with
    | nil => right; rfl
    | cons y bs =>
      rw [hexLe_cons_iff, hexLe_cons_iff]
      rcases Nat.lt_trichotomy x.toNat y.toNat with h | h | h
      · left; left; exact h
      · rcases ih bs with h1 | h1
        · left; right; exact ⟨h, h1⟩
        · right; right; exact ⟨h.symm, h1⟩
      · right; left; exact h

theorem hexLe_trans :
    ∀ a b c : List Char, hexLe a b = true → hexLe b c = true → hexLe a c = true
  | [], _, _, _, _ => rfl
  | _ :: _, [], _, h1, _ => by simp [hexLe] at h1
  | _ :: _, _ :: _, [], _, h2 => by simp [hexLe] at h2
  | x :: as, y :: bs, z :: cs, h1, h2 => by
    rw [hexLe_cons_iff] at h1 h2 ⊢
    rcases h1 with h1 | ⟨e1, r1⟩
    · rcases h2 with h2 | ⟨e2, r2⟩
      · left; omega
      · left; omega
    · rcases h2 with h2 | ⟨e2, r2⟩
      · left; omega
      · right; exact ⟨by omega, hexLe_trans as bs cs r1 r2⟩

instance : IsTotal (List Char) leHex := ⟨fun a b => hexLe_total a b⟩

instance : IsTrans (List Char) leHex := ⟨fun a b c => hexLe_trans a b c⟩

theorem getDB_setToken (st : CacheState) (ts : String) (v : Option (List Nat)) (ts' : String) :
    getDB (setToken st ts v) ts' = getDB st ts' := by
  unfold setToken
  split
  · rfl
  · split
    · rfl
    · split <;> rfl

theorem getDB_setDBf_self (st : CacheState) (ts : String) (l : List (List Char))
    (hts : ts ∈ allTypes) : getDB (setDBf st ts l) ts = l := by
  simp only [allTypes, List.mem_cons, List.not_mem_nil, or_false] at hts
  rcases hts with rfl | rfl | rfl <;> simp [getDB, setDBf]

theorem getToken_setToken_self (st : CacheState) (ts : String) (v : Option (List Nat))
    (hts : ts ∈ allTypes) : getToken (setToken st ts v) ts = v := by
  simp only [allTypes, List.mem_cons, List.not_mem_nil, or_false] at hts
  rcases hts with rfl | rfl | rfl <;> simp [getToken, setToken]

theorem negLoop_of_no_negatives (now : Int) (ps : List (List Char)) (st : CacheState)
    (h : st.negativeHits = []) : negLoop now ps st = (none, st) := by
  induction ps with
  | nil => rfl
  | cons p rest ih => simp [negLoop, h, lookupKey, ih]

theorem dbFind_fst (ps : List (List Char)) (st : CacheState) :
    (dbFind ps (databasesEntries st)).1 = "malware" ∨
    (dbFind ps (databasesEntries st)).1 = "social" ∨
    (dbFind ps (databasesEntries st)).1 = "unwanted" ∨
    (dbFind ps (databasesEntries st)).1 = "none" := by
  rcases h1 : dbFindIn st.malwareDB ps with _ | n1 <;>
    rcases h2 : dbFindIn st.socialDB ps with _ | n2 <;>
    rcases h3 : dbFindIn st.unwantedDB ps with _ | n3 <;>
    simp [dbFind, databasesEntries, h1, h2, h3]

theorem negLoop_frame (now : Int) (ps : List (List Char)) : ∀ st : CacheState,
    (negLoop now ps st).2 =
      { st with negativeHits := (negLoop now ps st).2.negativeHits } ∧
    List.Sublist (negLoop now ps st).2.negativeHits st.negativeHits := by
  induction ps with
  | nil => exact fun st => ⟨rfl, List.Sublist.refl _⟩
  | cons p rest ih =>
    intro st
    rcases h : lookupKey st.negativeHits p with _ | e
    · have hstep : negLoop now (p :: rest) st = negLoop now rest st := by
        simp [negLoop, h]
      rw [hstep]; exact ih st
    · by_cases hx : e * 1000 < now
      · have hstep : negLoop now (p :: rest) st =
            negLoop now rest { st with negativeHits := eraseKey st.negativeHits p } := by
          simp [negLoop, h, hx]
        rw [hstep]
        have h2 := ih { st with negativeHits := eraseKey st.negativeHits p }
        exact ⟨h2.1, h2.2.trans (List.filter_sublist _)⟩
      · have hstep : negLoop now (p :: rest) st = (some ("negative", p.length / 2), st) := by
          simp [negLoop, h, hx]
        rw [hstep]
        exact ⟨rfl, List.Sublist.refl _⟩

/-! ### Claim C8 -/

/-- C8 (amended): `findHash` is not side-effect-free: it deletes the expired
hit-cache entries it meets.  Amended statement: a `findHash` call leaves the
three prefix databases, the three prefix-size sets and the three version
tokens unchanged, and only ever removes entries from the positive and negative
hit caches (it never adds or alters one). -/
theorem findHash_frame (now : Int) (st : CacheState) (h : List Nat) :
    (findHash now st h).2 =
      { st with positiveHits := (findHash now st h).2.positiveHits,
                negativeHits := (findHash now st h).2.negativeHits } ∧
    List.Sublist (findHash now st h).2.positiveHits st.positiveHits ∧
    List.Sublist (findHash now st h).2.negativeHits st.negativeHits := by
  rcases hp : lookupKey st.positiveHits (bytesToHex h) with _ | pe
  · rcases hn : negLoop now (candidatePrefixStrings st h) st with ⟨res, st1⟩
    have hf := negLoop_frame now (candidatePrefixStrings st h) st
    rw [hn] at hf
    dsimp only at hf
    have hpos : st1.positiveHits = st.positiveHits := by rw [hf.1]
    have hrec : st1 = { st with positiveHits := st1.positiveHits,
                                negativeHits := st1.negativeHits } := by
      rw [hpos]; exact hf.1
    cases res with
    | none =>
      have hstep : findHash now st h =
          (dbFind (candidatePrefixStrings st h) (databasesEntries st1), st1) := by
        simp [findHash, hp, hn]
      rw [hstep]
      exact ⟨hrec, by rw [hpos], hf.2⟩
    | some r =>
      have hstep : findHash now st h = (r, st1) := by
        simp [findHash, hp, hn]
      rw [hstep]
      exact ⟨hrec, by rw [hpos], hf.2⟩
  · rcases pe with ⟨e, tys⟩
    by_cases hx : e * 1000 < now
    · have hstep : findHash now st h =
          (dbFind (candidatePrefixStrings st h)
            (databasesEntries { st with positiveHits := eraseKey st.positiveHits (bytesToHex h) }),
           { st with positiveHits := eraseKey st.positiveHits (bytesToHex h) }) := by
        simp [findHash, hp, hx]
      rw [hstep]
      exact ⟨rfl, List.filter_sublist _, List.Sublist.refl _⟩
    · have hstep : findHash now st h = (("positive", 32), st) := by
        simp [findHash, hp, hx]
      rw [hstep]
      exact ⟨rfl, List.Sublist.refl _, List.Sublist.refl _⟩

def hC8 : List Nat := List.replicate 32 7

def stC8 : CacheState :=
  { initialState with positiveHits := [(bytesToHex hC8, (10, ["MALWARE"]))] }

/-- C8 (counterexample): `findHash` is claimed to be a pure, side-effect-free
query that leaves all cache state unchanged.  At a state holding one expired
positive hit-cache entry for the queried hash, the call deletes that entry:
the post-call state differs from the pre-call state. -/
theorem findHash_mutates_state :
    (findHash 1700000000000 stC8 hC8).2 ≠ stC8 := by decide

/-! ### Claims C9 and C10 -/

/-- C9: a positive hit-cache entry whose expiry lies in the past at the moment
of a `findHash` call on its hash is not returned as a `"positive"` result, and
that same call deletes the entry from the positive hit cache (lazy eviction at
read time). -/
theorem findHash_expired_positive_evicted (now : Int) (st : CacheState) (h : List Nat)
    (e : Int) (tys : List String)
    (hl : lookupKey st.positiveHits (bytesToHex h) = some (e, tys))
    (hexp : e * 1000 < now) :
    (findHash now st h).1.1 ≠ "positive" ∧
    lookupKey (findHash now st h).2.positiveHits (bytesToHex h) = none := by
  have hstep : findHash now st h =
      (dbFind (candidatePrefixStrings st h)
        (databasesEntries { st with positiveHits := eraseKey st.positiveHits (bytesToHex h) }),
       { st with positiveHits := eraseKey st.positiveHits (bytesToHex h) }) := by
    simp [findHash, hl, hexp]
  rw [hstep]
  constructor
  · rcases dbFind_fst (candidatePrefixStrings st h)
      { st with positiveHits := eraseKey st.positiveHits (bytesToHex h) } with h1 | h1 | h1 | h1 <;>
      simp [h1]
  · exact lookupKey_eraseKey_self _ _

def hC9 : List Nat := List.replicate 32 7

def stC9 : CacheState :=
  { initialState with positiveHits := [(bytesToHex hC9, (10, ["MALWARE"]))] }

theorem findHash_expired_positive_evicted_witness :
    (findHash 1700000000000 stC9 hC9).1.1 ≠ "positive" ∧
    lookupKey (findHash 1700000000000 stC9 hC9).2.positiveHits (bytesToHex hC9) = none :=
  findHash_expired_positive_evicted 1700000000000 stC9 hC9 10 ["MALWARE"]
    (by decide) (by decide)

/-- C10: when the positive hit cache holds an (expired) entry for the queried
hash, `findHash` deletes it and proceeds directly to the prefix-database scan,
skipping the negative hit-cache check for that call: even when an unexpired
negative entry exists for one of the hash's candidate prefixes, the result is
not `"negative"` and the negative hit cache is left untouched. -/
theorem findHash_skips_negative_after_expired_positive (now : Int) (st : CacheState)
    (h : List Nat) (e : Int) (tys : List String) (p : List Char) (t : Int)
    (hl : lookupKey st.positiveHits (bytesToHex h) = some (e, tys))
    (hexp : e * 1000 < now)
    (_hp : p ∈ candidatePrefixStrings st h)
    (_hneg : lookupKey st.negativeHits p = some t)
    (_hnexp : ¬ t * 1000 < now) :
    (findHash now st h).1.1 ≠ "negative" ∧
    (findHash now st h).2.negativeHits = st.negativeHits := by
  have hstep : findHash now st h =
      (dbFind (candidatePrefixStrings st h)
        (databasesEntries { st with positiveHits := eraseKey st.positiveHits (bytesToHex h) }),
       { st with positiveHits := eraseKey st.positiveHits (bytesToHex h) }) := by
    simp [findHash, hl, hexp]
  rw [hstep]
  constructor
  · rcases dbFind_fst (candidatePrefixStrings st h)
      { st with positiveHits := eraseKey st.positiveHits (bytesToHex h) } with h1 | h1 | h1 | h1 <;>
      simp [h1]
  · rfl

def hC10 : List Nat := List.replicate 32 7

def stC10 : CacheState :=
  { initialState with
    positiveHits := [(bytesToHex hC10, (10, ["MALWARE"]))]
    negativeHits := [(bytesToHex (hC10.take 4), 99999999999)]
    malwareSizes := [4] }

theorem findHash_skips_negative_after_expired_positive_witness :
    (findHash 1700000000000 stC10 hC10).1.1 ≠ "negative" ∧
    (findHash 1700000000000 stC10 hC10).2.negativeHits = stC10.negativeHits :=
  findHash_skips_negative_after_expired_positive 1700000000000 stC10 hC10 10 ["MALWARE"]
    (bytesToHex (hC10.take 4)) 99999999999
    (by decide) (by decide) (by decide) (by decide) (by decide)

/-! ### Claim C2 -/

def hC2 : List Nat := [1, 2, 3, 4, 5] ++ List.replicate 27 0

def stC2 : CacheState :=
  { initialState with
    malwareSizes := [5], socialSizes := [4]
    malwareDB := [bytesToHex [1, 2, 3, 4, 5]]
    socialDB := [bytesToHex [1, 2, 3, 4]] }

/-- C2 (counterexample): the claim says the smallest matching prefix length
wins across categories.  At a state where the hash's 5-byte prefix is in the
malware database and its 4-byte prefix is in the social database, `findHash`
reports `("malware", 5)`, not the shorter `("social", 4)` match: the category
enumeration order, not the prefix length, is the primary key. -/
theorem findHash_category_order_counterexample :
    (findHash 0 stC2 hC2).1 = ("malware", 5) ∧
    (findHash 0 stC2 hC2).1 ≠ ("social", 4) := by decide

/-- C2 (amended): the prefix-database scan of `findHash` is category-major:
categories are scanned in enumeration order (malware, social, unwanted) and
prefix lengths ascending only within a category.  Whenever the hit caches do
not apply and the malware database matches the hash at some registered length,
the malware category is reported even if another category matches at a shorter
length: with registered sizes `a < b`, a malware match at length `b` and a
social match at length `a`, the result is `("malware", b)`. -/
theorem findHash_category_major_order (now : Int) (st : CacheState) (h : List Nat)
    (a b : Nat) (hab : a < b) (hb : b ≤ h.length)
    (hpos : st.positiveHits = []) (hneg : st.negativeHits = [])
    (hms : st.malwareSizes = [b]) (hss : st.socialSizes = [a]) (hus : st.unwantedSizes = [])
    (hin : bytesToHex (h.take b) ∈ st.malwareDB)
    (hnotin : bytesToHex (h.take a) ∉ st.malwareDB) :
    (findHash now st h).1 = ("malware", b) := by
  have hne : ¬ a = b := by omega
  have h2 : List.insertionSort (fun x y => x ≤ y) [b, a] = [a, b] := by
    simp [List.insertionSort, List.orderedInsert, Nat.not_le.mpr hab]
  have hps : candidatePrefixStrings st h =
      [bytesToHex (h.take a), bytesToHex (h.take b)] := by
    unfold candidatePrefixStrings
    rw [hms, hss, hus]
    have h1 : jsSetOfList ([b] ++ [a] ++ []) = [b, a] := by
      simp [jsSetOfList, setAdd, hne]
    rw [h1]
    dsimp only
    rw [h2]
    rfl
  have hlp : lookupKey st.positiveHits (bytesToHex h) = none := by
    rw [hpos]; rfl
  have hnl : negLoop now (candidatePrefixStrings st h) st = (none, st) :=
    negLoop_of_no_negatives now _ st hneg
  have hdbin : dbFindIn st.malwareDB [bytesToHex (h.take a), bytesToHex (h.take b)] =
      some ((bytesToHex (h.take b)).length / 2) := by
    simp [dbFindIn, hnotin, hin]
  have hlen : (bytesToHex (h.take b)).length / 2 = b := by
    rw [bytesToHex_length, List.length_take]
    omega
  have hdb : dbFind (candidatePrefixStrings st h) (databasesEntries st) = ("malware", b) := by
    rw [hps]
    simp [dbFind, databasesEntries, hdbin, hlen]
  have hstep : findHash now st h = (dbFind (candidatePrefixStrings st h) (databasesEntries st), st) := by
    simp [findHash, hlp, hnl]
  rw [hstep, hdb]

def hC2w : List Nat := [1, 2, 3, 4, 5] ++ List.replicate 27 0

def stC2w : CacheState :=
  { initialState with
    malwareSizes := [5], socialSizes := [4]
    malwareDB := [bytesToHex [1, 2, 3, 4, 5]]
    socialDB := [bytesToHex [1, 2, 3, 4]] }

theorem findHash_category_major_order_witness :
    (findHash 0 stC2w hC2w).1 = ("malware", 5) :=
  findHash_category_major_order 0 stC2w hC2w 4 5 (by decide) (by decide)
    (by decide) (by decide) (by decide) (by decide) (by decide) (by decide) (by decide)

/-! ### Claim C3 -/

def respC3 : DiffResponse :=
  { responseType := "RESET"
    additions := some { rawHashes := [{ prefixSize := 4, rawHashes := [170, 187, 204, 221] }] }
    removals := none
    newVersionToken := [1, 2, 3]
    checksum := List.replicate 32 0
    recommendedNextDiff := 0 }

def stC3 : CacheState := { initialState with malwareToken := some [9, 9] }

def scriptC3 : List (DiffRequest → Nat → Option DiffResponse) :=
  [fun _ _ => some respC3, fun _ _ => none]

/-- C3 (counterexample): the claim says the version token retains its pre-diff
value when the checksum does not match.  Running `#requestSingleDiff` against
a response whose declared checksum (all zeros) differs from the sha256 of the
applied database: the application fails validation (the episode ends in the
forced-reset recursion's retry exhaustion, not in a scheduled next diff), yet
the stored malware token is the response's new token `[1,2,3]`, no longer the
pre-diff `[9,9]`. -/
theorem token_stored_despite_checksum_mismatch :
    (requestSingleDiffGo scriptC3 stC3 "malware" false).1.1 = SyncResult.fallback ∧
    (requestSingleDiffGo scriptC3 stC3 "malware" false).1.2.malwareToken = some [1, 2, 3] ∧
    stC3.malwareToken = some [9, 9] := by decide

/-- C3 (amended): `#updateDB` stores the response's version token
unconditionally, before checksum validation runs: after every diff
application — validated or not — the category's token equals the response's
`newVersionToken`. -/
theorem updateDB_token_unconditional (st : CacheState) (response : DiffResponse)
    (ts : String) (hts : ts ∈ allTypes) :
    getToken (updateDB st response ts) ts = some response.newVersionToken := by
  unfold updateDB
  exact getToken_setToken_self _ ts _ hts

def respC3w : DiffResponse :=
  { responseType := "DIFF"
    additions := none
    removals := none
    newVersionToken := [4, 4]
    checksum := []
    recommendedNextDiff := 7 }

theorem updateDB_token_unconditional_witness :
    getToken (updateDB initialState respC3w "social") "social" = some [4, 4] :=
  updateDB_token_unconditional initialState respC3w "social" (by decide)

/-! ### Claim C4 -/

def respC4 : DiffResponse :=
  { responseType := "RESET"
    additions := some { rawHashes := [{ prefixSize := 4, rawHashes := [0, 0, 0, 2, 0, 0, 0, 1] }] }
    removals := none
    newVersionToken := [5]
    checksum := []
    recommendedNextDiff := 0 }

/-- C4 (counterexample): the claim says every diff application — RESET
included — leaves the database sorted ascending by the entries' values.  A
RESET whose additions arrive as `00000002, 00000001` is applied without any
re-sort: the resulting malware database is exactly that descending order, so
it is not ascending by own-length value (nor by any order). -/
theorem reset_leaves_database_unsorted :
    getDB (updateDB initialState respC4 "malware") "malware" =
      [bytesToHex [0, 0, 0, 2], bytesToHex [0, 0, 0, 1]] ∧
    ¬ sortedByOwnValue (getDB (updateDB initialState respC4 "malware") "malware") := by
  constructor
  · rfl
  · decide

/-- C4 (amended): only a DIFF application re-sorts.  After any DIFF
application the category's database is sorted ascending by JS string order on
the hex-string entries (for entries of equal length this coincides with their
unsigned big-endian values; for mixed lengths it does not in general).  A
RESET stores the additions in response order with no re-sort (see the
counterexample), and the consistency checksum is computed over iteration
order in both cases. -/
theorem diff_application_sorts_database (st : CacheState) (resp : DiffResponse)
    (ts : String) (hts : ts ∈ allTypes) (hdiff : resp.responseType = "DIFF") :
    List.Sorted leHex (getDB (updateDB st resp ts) ts) := by
  unfold updateDB
  rw [hdiff]
  simp only [if_pos]
  rw [getDB_setToken, getDB_setDBf_self _ _ _ hts]
  exact List.sorted_insertionSort leHex _

def respC4w : DiffResponse :=
  { responseType := "DIFF"
    additions := some { rawHashes := [{ prefixSize := 4, rawHashes := [0, 0, 0, 2, 0, 0, 0, 1] }] }
    removals := none
    newVersionToken := [5]
    checksum := []
    recommendedNextDiff := 0 }

theorem diff_application_sorts_database_witness :
    List.Sorted leHex (getDB (updateDB initialState respC4w "unwanted") "unwanted") :=
  diff_application_sorts_database initialState respC4w "unwanted" (by decide) (by decide)

/-! ### Claim C5 -/

def stC5 : CacheState :=
  { initialState with
    malwareDB := [bytesToHex [1, 2, 3, 4]]
    malwareSizes := [4]
    malwareToken := some [8] }

/-- C5 (code bug): when both `#simpleRetry` attempts of a scheduled sync's
diff call fail, the error is indeed not propagated and the database and token
are left unchanged — but the fallback is armed by `#diffPromise(type, 900)`,
which treats `900` as an absolute epoch deadline: at epoch `1700000000` the
computed delay `(900 - now) * 1000` ms is negative, Node clamps it to 1 ms,
and the resync fires immediately instead of 15 minutes (900000 ms) later. -/
theorem fallback_resync_fires_immediately :
    (requestSingleDiffGo [fun _ _ => none] stC5 "malware" false).1 =
      (SyncResult.fallback, stC5) ∧
    diffPromiseTimerMs 900 1700000000 = 1 ∧
    (900 : Int) * 1000 ≠ 1 := by decide

/-! ### Claim C6 -/

/-- C6 (counterexample): the claim says retry exhaustion of a caller-invoked
`requestDiff` surfaces as a fault to the caller.  With every attempt of the
diff call failing, `requestDiff("malware")` resolves successfully (the
episode ends in the swallowed fallback), not with an error. -/
theorem requestDiff_swallows_exhaustion :
    requestDiff [fun _ _ => none] initialState "malware" false =
      Except.ok ([SyncResult.fallback], initialState) := by rfl

/-- C6 (amended): retry exhaustion is never surfaced by `requestDiff`: for a
recognized category argument (or "all") the call always resolves without an
error, whatever the network does — the exhaustion is recovered exactly as for
a scheduled sync, by arming the fallback resync.  Only an unrecognized
category string makes `requestDiff` reject. -/
theorem requestDiff_no_error_for_valid_type
    (script : List (DiffRequest → Nat → Option DiffResponse)) (st : CacheState)
    (reset : Bool) (type : String) (hty : type = "all" ∨ type ∈ allTypes) :
    ∃ v, requestDiff script st type reset = Except.ok v := by
  rcases hty with rfl | hty
  · exact ⟨_, rfl⟩
  · simp only [allTypes, List.mem_cons, List.not_mem_nil, or_false] at hty
    rcases hty with rfl | rfl | rfl <;> exact ⟨_, rfl⟩

theorem requestDiff_no_error_for_valid_type_witness :
    ∃ v, requestDiff [] initialState "unwanted" true = Except.ok v :=
  requestDiff_no_error_for_valid_type [] initialState true "unwanted" (by decide)

/-! ### Claim C1 -/

def stC1 : CacheState :=
  { initialState with
    malwareSizes := [4]
    malwareDB := [bytesToHex [170, 187, 204, 221]] }

def hC1 : List Nat := [170, 187, 204, 221] ++ List.replicate 28 0

def hC1b : List Nat := List.replicate 32 3

/-- C1 (code bug): the claim says `check` never rejects because of remote
verification failure.  With the first candidate hash matching the malware
prefix database and every `#exponentialBackoff` attempt of `searchHashes`
failing, the catch block leaves `response` undefined and `response.threats`
throws, so `check` rejects with a TypeError — and the second candidate hash is
never evaluated, instead of contributing to a smaller result array. -/
theorem check_rejects_on_verification_exhaustion :
    check 1700000000000 (fun _ _ => none) stC1 [hC1, hC1b] =
      Except.error JsError.typeError := by rfl

/-! ### Claim C7 -/

def hC7 : List Nat := [170, 187, 204, 221] ++ List.replicate 28 1

def hC7b : List Nat := List.replicate 32 9

def respC7 : SearchHashesResponse :=
  { threats :=
      [{ hash := hC7, threatTypes := ["MALWARE"], expireSeconds := 99999999999 },
       { hash := hC7b, threatTypes := ["SOCIAL_ENGINEERING"], expireSeconds := 99999999999 }]
    negativeExpireTime := none }

def stC7 : CacheState :=
  { initialState with
    malwareSizes := [4]
    malwareDB := [bytesToHex [170, 187, 204, 221]] }

/-- C7 (counterexample): the claim says every threat record of a successful
verification response — including records after one whose hash equals the
queried hash — gets a positive hit-cache entry.  With a response holding the
queried hash first and a second record after it, `check` succeeds but the
second record's hash has no positive hit-cache entry: the loop breaks at the
first exact match. -/
theorem check_skips_records_after_match :
    (check 0 (fun _ _ => some respC7) stC7 [hC7]).map
        (fun r => (r.1, lookupKey r.2.positiveHits (bytesToHex hC7b))) =
      Except.ok (["MALWARE"], none) ∧
    respC7.threats.map (fun t => t.hash) = [hC7, hC7b] := by
  constructor <;> rfl

/-- C7 (amended): on a successful verification response, positive hit-cache
entries are inserted only for the records up to and including the first one
whose full hash equals the queried hash; at that record its threat types are
collected and the loop breaks, so records positioned after it are not
visited at all (the result does not depend on them). -/
theorem threatLoop_inserts_up_to_first_match (fullHash : List Nat)
    (pre post : List ThreatRecord) (t : ThreatRecord) (acc : List String) :
    ∀ st : CacheState, t.hash = fullHash → (∀ u ∈ pre, u.hash ≠ fullHash) →
    threatLoop fullHash (pre ++ t :: post) acc st =
      (t.threatTypes.foldl setAdd acc, insertThreat (pre.foldl insertThreat st) t) := by
  induction pre with
  | nil =>
    intro st ht _
    simp [threatLoop, ht]
  | cons u rest ih =>
    intro st ht hpre
    have hu : ¬ u.hash = fullHash := hpre u (List.mem_cons_self u rest)
    have hstep : threatLoop fullHash ((u :: rest) ++ t :: post) acc st =
        threatLoop fullHash (rest ++ t :: post) acc (insertThreat st u) := by
      simp [threatLoop, hu]
    rw [hstep, ih (insertThreat st u) ht (fun v hv => hpre v (List.mem_cons_of_mem u hv))]
    rfl

def hC7w : List Nat := List.replicate 32 5

def tC7pre : ThreatRecord := { hash := List.replicate 32 6, threatTypes := ["MALWARE"], expireSeconds := 50 }

def tC7hit : ThreatRecord := { hash := hC7w, threatTypes := ["UNWANTED_SOFTWARE"], expireSeconds := 60 }

def tC7post : ThreatRecord := { hash := List.replicate 32 8, threatTypes := ["MALWARE"], expireSeconds := 70 }

theorem threatLoop_inserts_up_to_first_match_witness :
    threatLoop hC7w [tC7pre, tC7hit, tC7post] [] initialState =
      (tC7hit.threatTypes.foldl setAdd [],
       insertThreat ([tC7pre].foldl insertThreat initialState) tC7hit) :=
  threatLoop_inserts_up_to_first_match hC7w [tC7pre] [tC7post] tC7hit [] initialState
    (by decide) (by decide)
